import Mathlib

/-!
Shallow embedding of the ai-rpc-framework forecasting service
(src/ai-forecasting-service) for specification checking.

Conventions used throughout:
- Python floats are modelled as exact rationals (`ℚ`) in all model state,
  inputs and control flow; only the health-scoring formulas, which apply
  the transcendental `exp`, produce real numbers (`ℝ`).
- The opaque external libraries (the Prophet forecaster and the sklearn
  IsolationForest) are modelled as oracle outcomes passed to each call:
  an outcome says whether the library call raises and, if not, which
  values it returns.  Library availability flags model the import guards
  (`PROPHET_AVAILABLE`, `SKLEARN_AVAILABLE`).
- Stateful Python methods become explicit state-passing functions.
- `datetime` values are modelled as integer epoch seconds.
- The decimal rounding the HTTP layer applies when serialising responses
  (`round(x, 4)` and `round(x, 6)` in `main.py` and `to_dict`) is
  presentation only and is omitted; all score claims are about the
  computed values.
-/

/-- config.py: MIN_DATA_POINTS_FOR_PROPHET (default 60). -/
def MIN_DATA_POINTS_FOR_PROPHET : ℕ := 60

/-- Outcome of an opaque library fit call: it either succeeds or raises. -/
inductive FitOutcome
  | ok
  | raises
deriving DecidableEq

/-- Outcome of the opaque `model.predict(df)` call inside
`ProphetModel._calculate_mape`: it either raises or yields the list of
in-sample predicted values (one per training row). -/
inductive MapeOutcome
  | raises
  | predicted (yhat : List ℚ)
deriving DecidableEq

/-- Outcome of the opaque forecast inside `ProphetModel.predict`: it either
raises or yields a point forecast `yhat` together with the optional
uncertainty interval `(yhat_lower, yhat_upper)`. -/
inductive PredictOutcome
  | raises
  | ok (yhat : ℚ) (interval : Option (ℚ × ℚ))
deriving DecidableEq

/-- Outcome of the opaque detector calls inside `AnomalyDetector.is_anomaly`:
either a raise, or the binary verdict (`predictionIsNeg` models
`prediction == -1`) together with the raw continuous outlier score. -/
inductive ClassifyOutcome
  | raises
  | ok (predictionIsNeg : Bool) (rawScore : ℚ)
deriving DecidableEq

/-- Handle to an opaque Prophet instance: `Prophet(...)` constructs an
unfitted instance, a successful `fit(df)` turns it into a fitted one
(retaining the data it was fitted on). -/
inductive ProphetHandle
  | unfitted
  | fitted (data : List ℚ)
deriving DecidableEq

/-- Trend classification returned by `ProphetModel.get_trend` (source uses
the strings "improving" / "stable" / "degrading" / "unknown"). -/
inductive Trend
  | improving
  | stable
  | degrading
  | unknown
deriving DecidableEq

/-- models/prophet_model.py, class ProphetModel: per-node forecasting state.
`model` is the opaque Prophet handle (`None` initially), `lastTrained` the
`last_trained` timestamp, `trainingData` the retained `training_data`
latency column, `dataPointsCount` the `data_points_count` counter and
`lastMape` the `last_mape` error metric. -/
structure ProphetModel where
  node : String
  model : Option ProphetHandle
  lastTrained : Option ℤ
  trainingData : Option (List ℚ)
  dataPointsCount : ℕ
  lastMape : ℚ
deriving DecidableEq

/-- ProphetModel.__init__. -/
def ProphetModel.init (node : String) : ProphetModel :=
  { node := node, model := none, lastTrained := none, trainingData := none,
    dataPointsCount := 0, lastMape := 1 }

/-- Mean of a list of rationals (pandas `.mean()`); only applied to
non-empty lists in reachable states. -/
def listMean (l : List ℚ) : ℚ := l.sum / l.length

/-- ProphetModel._calculate_mape: in-sample mean absolute percentage error.
The opaque `model.predict(df)` is the oracle `mo`; the predicted values are
paired row-by-row with the actuals (`model.predict(df)` returns one row per
training row).  Rows with actual `> 0.001` form the mask; if the mask is
non-empty the MAPE is clipped to at most 1, otherwise (or on a raise) the
metric defaults to 0.5. -/
def calcMape (df : List ℚ) (mo : MapeOutcome) : ℚ :=
  match mo with
  | .raises => 0.5
  | .predicted yhat =>
      let pairs := df.zip yhat
      let masked := pairs.filter (fun p => p.1 > 0.001)
      if masked.length > 0 then
        min 1 (listMean (masked.map (fun p => |(p.1 - p.2) / p.1|)))
      else 0.5

/-- ProphetModel.train.  `prophetAvailable` models `PROPHET_AVAILABLE`;
`df` is the history (`None` or the latency column); `now` the clock; `fit`
the outcome of `self.model.fit(df)`; `mo` the oracle for the opaque predict
inside `_calculate_mape`.  Note the source assigns
`self.model = Prophet(...)` before calling `fit`, so when `fit` raises the
handle has already been replaced by a fresh unfitted instance; the other
fields are only assigned after a successful fit. -/
def ProphetModel.train (m : ProphetModel) (prophetAvailable : Bool)
    (df : Option (List ℚ)) (now : ℤ) (fit : FitOutcome) (mo : MapeOutcome) :
    Bool × ProphetModel :=
  if prophetAvailable = false then (false, m)
  else
    match df with
    | none => (false, m)
    | some data =>
        if data.length < MIN_DATA_POINTS_FOR_PROPHET then (false, m)
        else
          let m1 : ProphetModel := { m with model := some ProphetHandle.unfitted }
          match fit with
          | .raises => (false, m1)
          | .ok =>
              (true,
               { m1 with
                 model := some (ProphetHandle.fitted data),
                 trainingData := some data,
                 dataPointsCount := data.length,
                 lastTrained := some now,
                 lastMape := calcMape data mo })

/-- ProphetModel._get_data_confidence, as a function of
`self.data_points_count`. -/
def ProphetModel.getDataConfidence (n : ℕ) : ℚ :=
  if n = 0 then 0
  else if n < 60 then 0.1 + ((n : ℚ) / 60) * 0.4
  else if n < 1440 then 0.5 + (((n : ℚ) - 60) / 1380) * 0.4
  else min 0.99 (0.9 + (n : ℚ) / 100000)

/-- ProphetModel.predict.  Returns `(predicted_latency, confidence)`.
When Prophet is unavailable or `self.model is None` the sentinel `(0, 0)`
is returned before the `try` block.  An unfitted handle (left behind by a
failed fit) raises inside the `try` (Prophet forecasting requires a fitted
model), which the `except` converts to `(0, 0)`.  On a fitted handle the
oracle `po` gives the opaque forecast outcome. -/
def ProphetModel.predict (m : ProphetModel) (prophetAvailable : Bool)
    (po : PredictOutcome) : ℚ × ℚ :=
  if prophetAvailable = false then (0, 0)
  else
    match m.model with
    | none => (0, 0)
    | some ProphetHandle.unfitted => (0, 0)
    | some (ProphetHandle.fitted _) =>
        match po with
        | .raises => (0, 0)
        | .ok yhat interval =>
            let predictedLatency := max 0 yhat
            let baseConfidence :=
              match interval with
              | some (lo, hi) => max 0 (1 - (hi - lo) / (predictedLatency + 0.001))
              | none => 0.5
            let dataConfidence := ProphetModel.getDataConfidence m.dataPointsCount
            let mapeConfidence := max 0 (1 - m.lastMape)
            let confidence :=
              max 0.1 (min 0.99 (baseConfidence * dataConfidence * mapeConfidence))
            (predictedLatency, confidence)

/-- ProphetModel.get_trend: "unknown" when `self.model is None or
self.training_data is None`; otherwise compares the mean of the last 10
retained observations (`tail(10)`) with the mean of the whole retained
training set. -/
def ProphetModel.getTrend (m : ProphetModel) : Trend :=
  match m.model, m.trainingData with
  | some _, some data =>
      let recent := listMean (data.drop (data.length - 10))
      let overall := listMean data
      let ro := if overall > 0 then recent / overall else 1
      if ro < 0.9 then Trend.improving
      else if ro > 1.1 then Trend.degrading
      else Trend.stable
  | _, _ => Trend.unknown

/-- ProphetModel.is_trained: `self.model is not None and self.last_trained
is not None`. -/
def ProphetModel.is_trained (m : ProphetModel) : Bool :=
  m.model.isSome && m.lastTrained.isSome

/-- ProphetModel.needs_retrain (interval in hours; caller passes the
default 6): true when never trained or when more than `hours` have elapsed
since `last_trained`. -/
def ProphetModel.needsRetrain (m : ProphetModel) (now : ℤ) (hours : ℤ) : Bool :=
  match m.lastTrained with
  | none => true
  | some t => decide (now - t > hours * 3600)

/-- Handle to an opaque IsolationForest instance, analogous to
`ProphetHandle`. -/
inductive ForestHandle
  | unfitted
  | fitted (data : List (ℚ × ℚ))
deriving DecidableEq

/-- models/anomaly.py, class AnomalyDetector: sliding window of
`(latency, error_rate)` observations (deque with `maxlen = window_size`),
the opaque detector handle, the `is_trained` flag and the `min_samples`
threshold. -/
structure AnomalyDetector where
  node : String
  windowSize : ℕ
  observations : List (ℚ × ℚ)
  model : Option ForestHandle
  is_trained : Bool
  minSamples : ℕ
deriving DecidableEq

/-- AnomalyDetector.__init__ (window_size defaults to 100, min_samples
to 20). -/
def AnomalyDetector.init (node : String) : AnomalyDetector :=
  { node := node, windowSize := 100, observations := [], model := none,
    is_trained := false, minSamples := 20 }

/-- Append to a bounded FIFO (`collections.deque` with `maxlen = cap`):
the new element goes to the back; the oldest element is evicted when the
window is full. -/
def pushWindow {α : Type} (w : List α) (x : α) (cap : ℕ) : List α :=
  if w.length < cap then w ++ [x] else w.drop 1 ++ [x]

/-- AnomalyDetector._train: refits the IsolationForest from scratch on the
full current window.  Returns immediately when sklearn is unavailable; on
success sets `is_trained := true`; when the fit raises, the handle has
already been replaced by the fresh unfitted instance and `is_trained` is
set to `false`. -/
def AnomalyDetector.trainForest (d : AnomalyDetector) (sklearnAvailable : Bool)
    (fit : FitOutcome) : AnomalyDetector :=
  if sklearnAvailable = false then d
  else
    match fit with
    | .ok => { d with model := some (ForestHandle.fitted d.observations),
                      is_trained := true }
    | .raises => { d with model := some ForestHandle.unfitted,
                          is_trained := false }

/-- AnomalyDetector.add_observation: appends to the window, then refits
the detector whenever the window holds at least `min_samples`
observations. -/
def AnomalyDetector.addObservation (d : AnomalyDetector) (latency errorRate : ℚ)
    (sklearnAvailable : Bool) (fit : FitOutcome) : AnomalyDetector :=
  let d1 := { d with
              observations := pushWindow d.observations (latency, errorRate) d.windowSize }
  if d1.observations.length ≥ d1.minSamples then
    d1.trainForest sklearnAvailable fit
  else d1

/-- AnomalyDetector.is_anomaly: `(False, 0.0)` when sklearn is unavailable
or the detector is not trained; inside the `try`, the opaque verdict and
raw score are rescaled via `max(0, min(1, -raw_score - 0.3))`; raises are
caught and reported as `(False, 0.0)`. -/
def AnomalyDetector.isAnomaly (d : AnomalyDetector) (latency errorRate : ℚ)
    (sklearnAvailable : Bool) (co : ClassifyOutcome) : Bool × ℚ :=
  if sklearnAvailable = false || d.is_trained = false then (false, 0)
  else
    match co with
    | .raises => (false, 0)
    | .ok pred raw => (pred, max 0 (min 1 (-raw - 0.3)))

/-- Iterate `add_observation` over a list of
`((latency, error_rate), sklearn_available, fit_outcome)` inputs. -/
def runAdds (d : AnomalyDetector) :
    List ((ℚ × ℚ) × Bool × FitOutcome) → AnomalyDetector
  | [] => d
  | (le, avail, fit) :: rest =>
      runAdds (d.addObservation le.1 le.2 avail fit) rest

/-- models/prophet_model.py ProphetModelRegistry / models/anomaly.py
AnomalyDetectorRegistry: both have the identical `get_or_create` shape (a
dict guarded by a lock).  To express Python object identity, each created
instance is tagged with an allocation number (`nextId`); the dict is an
association list from node key to allocation number. -/
structure ModelRegistry where
  models : List (String × ℕ)
  nextId : ℕ
deriving DecidableEq

/-- Lookup in the registry dict. -/
def findEntry : List (String × ℕ) → String → Option ℕ
  | [], _ => none
  | (k, v) :: rest, key => if k = key then some v else findEntry rest key

/-- get_or_create: return the existing instance for the key, or insert and
return a freshly constructed one. -/
def ModelRegistry.getOrCreate (r : ModelRegistry) (key : String) :
    ℕ × ModelRegistry :=
  match findEntry r.models key with
  | some i => (i, r)
  | none => (r.nextId, { models := r.models ++ [(key, r.nextId)], nextId := r.nextId + 1 })

/-- models/health_scorer.py: NodeHealth dataclass (one scored result; the
fallback branch of `main._get_detailed_predictions` builds the same
shape directly). -/
structure NodeRes where
  node : String
  health_score : ℝ
  current_latency : ℚ
  predicted_latency : ℚ
  error_rate : ℚ
  is_anomaly : Bool
  anomaly_score : ℚ
  trend : Trend
  confidence : ℚ

/-- The per-node value of the `/predict/detailed` response map: either the
two-field neutral default used when Prometheus is unavailable, or a full
NodeHealth record. -/
inductive PredResponse
  | degraded (health_score : ℝ) (confidence : ℚ)
  | full (r : NodeRes)

/-- HealthScorer._latency_to_score with the default sensitivity factor
`k = 20`: `1.0` for `latency ≤ 0`, else `exp(-k * latency)`. -/
noncomputable def latencyToScore (latency : ℚ) : ℝ :=
  if latency ≤ 0 then 1 else Real.exp (-(20 * (latency : ℝ)))

/-- HealthScorer.calculate_simple_score: `0.5` (new-node default) for
`latency ≤ 0`, else `_latency_to_score(latency)`. -/
noncomputable def calculateSimpleScore (latency : ℚ) : ℝ :=
  if latency ≤ 0 then 0.5 else latencyToScore latency

/-- HealthScorer.calculate_health with the default config weights
0.35 / 0.25 / 0.25 / 0.15: weighted blend of the latency, error, trend and
stability components, then the anomaly and trend multipliers, then the
clamp to `[0.01, 1.0]`. -/
noncomputable def calculateHealth (node : String) (current predicted errorRate : ℚ)
    (isAnom : Bool) (anomScore : ℚ) (trend : Trend) (confidence : ℚ) : NodeRes :=
  let currentLatencyScore := latencyToScore current
  let errorRateScore : ℝ := max 0 (1 - (errorRate : ℝ))
  let trendScore : ℝ :=
    if confidence > 0.3 then
      (1 - (confidence : ℝ)) * currentLatencyScore
        + (confidence : ℝ) * latencyToScore predicted
    else currentLatencyScore
  let stabilityScore : ℝ := max 0 (1 - (anomScore : ℝ))
  let h0 : ℝ :=
    0.35 * currentLatencyScore + 0.25 * errorRateScore
      + 0.25 * trendScore + 0.15 * stabilityScore
  let h1 := if isAnom then h0 * 0.5 else h0
  let h2 :=
    if trend = Trend.degrading then h1 * 0.9
    else if trend = Trend.improving then h1 * 1.05
    else h1
  { node := node, health_score := max 0.01 (min 1 h2),
    current_latency := current, predicted_latency := predicted,
    error_rate := errorRate, is_anomaly := isAnom,
    anomaly_score := anomScore, trend := trend, confidence := confidence }

/-- Per-node oracle bundle for one pass of the orchestrator loop: the
IsolationForest refit triggered by `add_observation`, the detector
classification, and the Prophet forecast. -/
structure NodeOracles where
  anomalyFit : FitOutcome
  classify : ClassifyOutcome
  forecast : PredictOutcome

/-- Environment of one scoring request: Prometheus availability, the
per-node samples the two batched reads return (`none` when the node is
absent from the query result), the library availability flags, the clock
and the opaque-model oracles. -/
structure Env where
  prometheusAvailable : Bool
  latencySample : String → Option ℚ
  errorSample : String → Option ℚ
  sklearnAvailable : Bool
  prophetAvailable : Bool
  now : ℤ
  oracles : String → NodeOracles

/-- The service's module-level mutable state: the two per-node model
registries, here as association lists from node key to model value (the
allocation-tagged `ModelRegistry` above captures the identity semantics
of the same dicts). -/
structure ServiceState where
  prophetModels : List (String × ProphetModel)
  anomalyDetectors : List (String × AnomalyDetector)

/-- Non-creating lookup in a value registry. -/
def lookupModel {β : Type} : List (String × β) → String → Option β
  | [], _ => none
  | (k, v) :: rest, node => if k = node then some v else lookupModel rest node

/-- Store an updated model back under its key (insert if absent). -/
def storeModel {β : Type} : List (String × β) → String → β → List (String × β)
  | [], node, m => [(node, m)]
  | (k, v) :: rest, node, m =>
      if k = node then (node, m) :: rest else (k, v) :: storeModel rest node m

/-- main._get_detailed_predictions, scoring-path selection for one node
(lines 133-164): the full multi-dimensional formula when
`confidence > 0.2`, else the simple fallback with the error-rate penalty
applied only when `error_rate > 0.1`; the fallback reports
`predicted_latency = current_latency`, trend "unknown" and confidence 0. -/
noncomputable def scoreNode (node : String) (current predicted errorRate : ℚ)
    (isAnom : Bool) (anomScore : ℚ) (trend : Trend) (confidence : ℚ) :
    PredResponse :=
  if confidence > 0.2 then
    PredResponse.full
      (calculateHealth node current predicted errorRate isAnom anomScore trend confidence)
  else
    let simpleScore := calculateSimpleScore current
    let simpleScore :=
      if errorRate > 0.1 then simpleScore * (1 - (errorRate : ℝ)) else simpleScore
    PredResponse.full
      { node := node, health_score := simpleScore, current_latency := current,
        predicted_latency := current, error_rate := errorRate,
        is_anomaly := isAnom, anomaly_score := anomScore,
        trend := Trend.unknown, confidence := 0 }

/-- main._get_detailed_predictions, loop body for one node (lines 104-164):
feed the anomaly detector, classify, then either predict-and-trend (model
trained) or fall back to current latency with confidence 0 and possibly
flag the node for background training.  Returns the response, the updated
models and the needs-training flag. -/
noncomputable def processNode (env : Env) (node : String) (current errorRate : ℚ)
    (pm : ProphetModel) (ad : AnomalyDetector) :
    PredResponse × ProphetModel × AnomalyDetector × Bool :=
  let ors := env.oracles node
  let ad1 := ad.addObservation current errorRate env.sklearnAvailable ors.anomalyFit
  let cls := ad1.isAnomaly current errorRate env.sklearnAvailable ors.classify
  if pm.is_trained then
    let pr := pm.predict env.prophetAvailable ors.forecast
    (scoreNode node current pr.1 errorRate cls.1 cls.2 pm.getTrend pr.2, pm, ad1, false)
  else
    (scoreNode node current current errorRate cls.1 cls.2 Trend.unknown 0, pm, ad1,
     pm.needsRetrain env.now 6)

/-- One step of the orchestrator's per-node loop over the accumulated
(results, state, nodes_needing_training) triple; the current latency and
error rate default to 0 when the batched reads carry no sample for the
node (`current_latencies.get(node, 0)` / `current_errors.get(node, 0)`). -/
noncomputable def stepNode (env : Env)
    (acc : List (String × PredResponse) × ServiceState × List String)
    (node : String) : List (String × PredResponse) × ServiceState × List String :=
  let current := (env.latencySample node).getD 0
  let errorRate := (env.errorSample node).getD 0
  let pm := (lookupModel acc.2.1.prophetModels node).getD (ProphetModel.init node)
  let ad := (lookupModel acc.2.1.anomalyDetectors node).getD (AnomalyDetector.init node)
  let out := processNode env node current errorRate pm ad
  (acc.1 ++ [(node, out.1)],
   { prophetModels := storeModel acc.2.1.prophetModels node out.2.1,
     anomalyDetectors := storeModel acc.2.1.anomalyDetectors node out.2.2.1 },
   if out.2.2.2 then acc.2.2 ++ [node] else acc.2.2)

/-- main._get_detailed_predictions (lines 86-170): when Prometheus is
unavailable, every node gets the neutral `{health_score: 0.5,
confidence: 0.0}` and nothing else happens; otherwise the nodes are
processed sequentially.  Returns the response map (as an ordered list),
the updated service state and the nodes handed to the background
training task. -/
noncomputable def getDetailedPredictions (nodes : List String) (st : ServiceState)
    (env : Env) : List (String × PredResponse) × ServiceState × List String :=
  if env.prometheusAvailable = false then
    (nodes.map (fun node => (node, PredResponse.degraded 0.5 0)), st, [])
  else
    nodes.foldl (stepNode env) ([], st, [])

/-- The `health_score` a response entry carries
(`data.get("health_score", 0.5)` in `predict_health_scores`; both response
shapes carry the key). -/
noncomputable def healthScoreOf : PredResponse → ℝ
  | .degraded h _ => h
  | .full r => r.health_score

/-- main.predict_health_scores: the simple `{node: score}` view of the
detailed response (the serialisation-time rounding to 4 decimals is
omitted, see the header note). -/
noncomputable def predictHealthScores (nodes : List String) (st : ServiceState)
    (env : Env) : List (String × ℝ) × ServiceState × List String :=
  let out := getDetailedPredictions nodes st env
  (out.1.map (fun p => (p.1, healthScoreOf p.2)), out.2.1, out.2.2)

/-- A full window append grows the window by one as long as the capacity
is not yet reached. -/
theorem pushWindow_length_lt {α : Type} (w : List α) (x : α) (cap : ℕ)
    (h : w.length < cap) : pushWindow w x cap = w ++ [x] := by
  simp [pushWindow, h]

/-- While strictly fewer than `min_samples = 20` observations have been
added to a fresh-shaped detector, no refit is triggered and the trained
flag stays `false`. -/
theorem runAdds_below_min_not_trained :
    ∀ (inputs : List ((ℚ × ℚ) × Bool × FitOutcome)) (d : AnomalyDetector),
      d.minSamples = 20 → d.windowSize = 100 → d.is_trained = false →
      d.observations.length + inputs.length < 20 →
      (runAdds d inputs).is_trained = false := by
  intro inputs
  induction inputs with
  | nil => intro d _ _ h3 _; simpa [runAdds] using h3
  | cons hd tl ih =>
      intro d h1 h2 h3 h4
      obtain ⟨le, avail, fit⟩ := hd
      have h4' : d.observations.length + tl.length + 1 < 20 := by
        simp only [List.length_cons] at h4; omega
      have hlen : d.observations.length < d.windowSize := by omega
      have hpush := pushWindow_length_lt d.observations (le.1, le.2) d.windowSize hlen
      have hstep :
          d.addObservation le.1 le.2 avail fit
            = { d with observations := d.observations ++ [(le.1, le.2)] } := by
        simp only [AnomalyDetector.addObservation, hpush]
        rw [if_neg]
        simp only [List.length_append, List.length_singleton, h1]
        omega
      simp only [runAdds, hstep]
      exact ih _ (by simpa using h1) (by simpa using h2) (by simpa using h3)
        (by simp only [List.length_append, List.length_singleton]; omega)

/-- C8: AnomalyModel.classify contract: before the detector has been
trained (in particular when fewer than `min_samples = 20` observations
have been added) or when sklearn is unavailable, classify returns
`(false, 0.0)`; internal classification failures are caught and also
yield `(false, 0.0)`; otherwise the anomaly score is
`clamp(0, 1, -raw_score - 0.3)` of the raw outlier score, which always
lies in `[0, 1]`. -/
theorem anomaly_classify_contract :
    (∀ (d : AnomalyDetector) (lat er : ℚ) (avail : Bool) (co : ClassifyOutcome),
        avail = false ∨ d.is_trained = false →
        d.isAnomaly lat er avail co = (false, 0))
    ∧ (∀ (d : AnomalyDetector) (lat er : ℚ) (avail : Bool),
        d.isAnomaly lat er avail ClassifyOutcome.raises = (false, 0))
    ∧ (∀ (d : AnomalyDetector) (lat er : ℚ) (p : Bool) (raw : ℚ),
        d.is_trained = true →
        d.isAnomaly lat er true (ClassifyOutcome.ok p raw)
            = (p, max 0 (min 1 (-raw - 0.3)))
          ∧ 0 ≤ max 0 (min 1 (-raw - 0.3))
          ∧ max 0 (min 1 (-raw - 0.3)) ≤ 1)
    ∧ (∀ (node : String) (inputs : List ((ℚ × ℚ) × Bool × FitOutcome)),
        inputs.length < 20 →
        (runAdds (AnomalyDetector.init node) inputs).is_trained = false) := by
  refine ⟨?_, ?_, ?_, ?_⟩
  · intro d lat er avail co h
    rcases h with h | h <;> simp [AnomalyDetector.isAnomaly, h]
  · intro d lat er avail
    by_cases h : avail = false
    · simp [AnomalyDetector.isAnomaly, h]
    · by_cases h2 : d.is_trained = false <;>
        simp [AnomalyDetector.isAnomaly, h, h2]
  · intro d lat er p raw h
    refine ⟨by simp [AnomalyDetector.isAnomaly, h], le_max_left _ _, ?_⟩
    rcases le_or_lt (min 1 (-raw - 0.3)) 0 with h1 | h1
    · rw [max_eq_left h1]; norm_num
    · rw [max_eq_right h1.le]; exact min_le_left _ _
  · intro node inputs h
    exact runAdds_below_min_not_trained inputs (AnomalyDetector.init node)
      rfl rfl rfl (by simpa [AnomalyDetector.init] using h)

/-- Witness for `anomaly_classify_contract`: a fresh detector with no
observations added is below `min_samples` and is not trained. -/
theorem anomaly_classify_contract_witness :
    ([] : List ((ℚ × ℚ) × Bool × FitOutcome)).length < 20
    ∧ (runAdds (AnomalyDetector.init "n1") []).is_trained = false :=
  ⟨by decide, anomaly_classify_contract.2.2.2 "n1" [] (by decide)⟩

/-- C7 counterexample: the claimed three-segment ramp fails at the segment
ends.  At `data_point_count = 0` the code returns `0.0`, not the linear
ramp value `0.1`; and at `data_point_count = 1440` the code returns
`min(0.99, 0.9 + 1440/100000) = 0.9144`, not the `0.9` endpoint of the
claimed middle segment. -/
theorem data_confidence_ramp_cex :
    ProphetModel.getDataConfidence 0 ≠ 0.1 + ((0 : ℚ) / 60) * 0.4
    ∧ ProphetModel.getDataConfidence 1440 ≠ 0.5 + (((1440 : ℚ) - 60) / 1380) * 0.4 := by
  constructor <;> norm_num [ProphetModel.getDataConfidence, min_def]

/-- C7 (amended): the derived data confidence is `0.0` at 0 data points;
for 1 to 59 points it follows the linear ramp `0.1 + 0.4 * n / 60`
(scaling towards 0.5); for 60 to 1439 points the linear ramp
`0.5 + 0.4 * (n - 60) / 1380` (scaling towards 0.9); from 1440 points on
it equals `min(0.99, 0.9 + n / 100000)`; and it never exceeds `0.99`. -/
theorem data_confidence_ramp_amended :
    ProphetModel.getDataConfidence 0 = 0
    ∧ (∀ n : ℕ, 0 < n → n < 60 →
        ProphetModel.getDataConfidence n = 0.1 + ((n : ℚ) / 60) * 0.4)
    ∧ (∀ n : ℕ, 60 ≤ n → n < 1440 →
        ProphetModel.getDataConfidence n = 0.5 + (((n : ℚ) - 60) / 1380) * 0.4)
    ∧ (∀ n : ℕ, 1440 ≤ n →
        ProphetModel.getDataConfidence n = min 0.99 (0.9 + (n : ℚ) / 100000))
    ∧ (∀ n : ℕ, ProphetModel.getDataConfidence n ≤ 0.99) := by
  refine ⟨by norm_num [ProphetModel.getDataConfidence], ?_, ?_, ?_, ?_⟩
  · intro n h1 h2
    unfold ProphetModel.getDataConfidence
    rw [if_neg (by omega), if_pos h2]
  · intro n h1 h2
    unfold ProphetModel.getDataConfidence
    rw [if_neg (by omega), if_neg (by omega), if_pos h2]
  · intro n h1
    unfold ProphetModel.getDataConfidence
    rw [if_neg (by omega), if_neg (by omega), if_neg (by omega)]
  · intro n
    unfold ProphetModel.getDataConfidence
    split_ifs with h1 h2 h3
    · norm_num
    · have hn : (n : ℚ) ≤ 59 := by exact_mod_cast Nat.lt_succ_iff.mp h2
      nlinarith
    · have hn : (n : ℚ) ≤ 1439 := by exact_mod_cast Nat.lt_succ_iff.mp h3
      nlinarith
    · exact min_le_left _ _

/-- Witness for `data_confidence_ramp_amended`: at 30 data points the
confidence is on the first linear segment. -/
theorem data_confidence_ramp_amended_witness :
    ((0 < 30 ∧ 30 < 60) ∧
      ProphetModel.getDataConfidence 30 = 0.1 + ((30 : ℚ) / 60) * 0.4) :=
  ⟨⟨by decide, by decide⟩,
   data_confidence_ramp_amended.2.1 30 (by decide) (by decide)⟩

/-- Registry well-formedness: every stored allocation number is below the
allocation counter, and entries under distinct keys carry distinct
allocation numbers.  Holds for the empty registry and is preserved by
`getOrCreate`. -/
def ModelRegistry.WFreg (r : ModelRegistry) : Prop :=
  (∀ k i, findEntry r.models k = some i → i < r.nextId)
  ∧ (∀ k i k2 j, findEntry r.models k = some i → findEntry r.models k2 = some j →
      k ≠ k2 → i ≠ j)

/-- Appending a fresh entry makes it visible under its own key. -/
theorem findEntry_append_self (l : List (String × ℕ)) (key : String) (v : ℕ)
    (h : findEntry l key = none) : findEntry (l ++ [(key, v)]) key = some v := by
  induction l with
  | nil => simp [findEntry]
  | cons hd tl ih =>
      obtain ⟨k0, v0⟩ := hd
      by_cases hk : k0 = key
      · simp [findEntry, hk] at h
      · simp only [findEntry, hk, if_false, List.cons_append] at h ⊢
        exact ih h

/-- Appending an entry under a different key does not change a lookup. -/
theorem findEntry_append_ne (l : List (String × ℕ)) (key key2 : String) (v : ℕ)
    (h : key2 ≠ key) : findEntry (l ++ [(key, v)]) key2 = findEntry l key2 := by
  induction l with
  | nil =>
      have hne : key ≠ key2 := fun hh => h hh.symm
      simp [findEntry, hne]
  | cons hd tl ih =>
      obtain ⟨k0, v0⟩ := hd
      by_cases hk : k0 = key2
      · simp [findEntry, hk]
      · simp only [List.cons_append, findEntry, if_neg hk]
        exact ih

/-- An existing binding survives appending a fresh entry. -/
theorem findEntry_append_mono (l : List (String × ℕ)) (e : String × ℕ)
    (k0 : String) (i0 : ℕ) (h : findEntry l k0 = some i0) :
    findEntry (l ++ [e]) k0 = some i0 := by
  induction l with
  | nil => simp [findEntry] at h
  | cons hd tl ih =>
      obtain ⟨k1, v1⟩ := hd
      by_cases hk : k1 = k0
      · simp only [findEntry, if_pos hk] at h
        simp [findEntry, hk, h]
      · simp only [findEntry, if_neg hk] at h
        simp only [List.cons_append, findEntry, if_neg hk]
        exact ih h

/-- C9: registry identity stability: on a well-formed registry (as both
module-level registries are, starting empty), `get_or_create` with the
same key twice returns the same instance, a subsequent `get_or_create`
with a distinct key returns a distinct instance, and existing entries are
never removed or replaced by any `get_or_create`. -/
theorem registry_identity_stable (r : ModelRegistry) (k k2 : String)
    (h : r.WFreg) :
    ((r.getOrCreate k).2.getOrCreate k).1 = (r.getOrCreate k).1
    ∧ (k ≠ k2 → ((r.getOrCreate k).2.getOrCreate k2).1 ≠ (r.getOrCreate k).1)
    ∧ (∀ k0 i0, findEntry r.models k0 = some i0 →
        findEntry (r.getOrCreate k).2.models k0 = some i0) := by
  obtain ⟨hlt, hinj⟩ := h
  rcases hfind : findEntry r.models k with _ | i
  · -- k freshly created: the first call inserts (k, r.nextId)
    have h1 : r.getOrCreate k
        = (r.nextId, { models := r.models ++ [(k, r.nextId)], nextId := r.nextId + 1 }) := by
      simp [ModelRegistry.getOrCreate, hfind]
    refine ⟨?_, ?_, ?_⟩
    · rw [h1]
      simp [ModelRegistry.getOrCreate, findEntry_append_self r.models k r.nextId hfind]
    · intro hne
      rw [h1]
      simp only [ModelRegistry.getOrCreate]
      rw [findEntry_append_ne r.models k k2 r.nextId (Ne.symm hne)]
      rcases hfind2 : findEntry r.models k2 with _ | j
      · simp
      · simpa using (hlt k2 j hfind2).ne
    · intro k0 i0 h0
      rw [h1]
      exact findEntry_append_mono r.models (k, r.nextId) k0 i0 h0
  · -- k already present: the first call returns the stored instance
    have h1 : r.getOrCreate k = (i, r) := by
      simp [ModelRegistry.getOrCreate, hfind]
    refine ⟨?_, ?_, ?_⟩
    · rw [h1]; simp [ModelRegistry.getOrCreate, hfind]
    · intro hne
      rw [h1]
      simp only [ModelRegistry.getOrCreate]
      rcases hfind2 : findEntry r.models k2 with _ | j
      · simpa using (hlt k i hfind).ne'
      · simpa using hinj k2 j k i hfind2 hfind (Ne.symm hne)
    · intro k0 i0 h0
      rw [h1]; exact h0

/-- Witness for `registry_identity_stable`: on the (well-formed) empty
registry, creating "n1" and then "n2" yields distinct instances. -/
theorem registry_identity_stable_witness :
    ("n1" : String) ≠ "n2"
    ∧ (((ModelRegistry.mk [] 0).getOrCreate "n1").2.getOrCreate "n2").1
        ≠ ((ModelRegistry.mk [] 0).getOrCreate "n1").1 :=
  ⟨by decide,
   (registry_identity_stable (ModelRegistry.mk [] 0) "n1" "n2"
      ⟨fun k i hh => by simp [findEntry] at hh,
       fun k i k2 j hh => by simp [findEntry] at hh⟩).2.1 (by decide)⟩

/-- C6: the trained state is monotone.  First, `train` on a history with
fewer than `MIN_DATA_POINTS = 60` observations returns `false` and leaves
the whole state (in particular `is_trained()`) unchanged.  Second, a
successful `train` leaves the model trained.  Third, once trained, a model
stays trained after any further `train` call, successful or failed. -/
theorem trained_state_monotone :
    (∀ (m : ProphetModel) (avail : Bool) (l : List ℚ) (now : ℤ)
        (fit : FitOutcome) (mo : MapeOutcome),
        l.length < MIN_DATA_POINTS_FOR_PROPHET →
        m.train avail (some l) now fit mo = (false, m))
    ∧ (∀ (m : ProphetModel) (avail : Bool) (df : Option (List ℚ)) (now : ℤ)
        (fit : FitOutcome) (mo : MapeOutcome),
        (m.train avail df now fit mo).1 = true →
        (m.train avail df now fit mo).2.is_trained = true)
    ∧ (∀ (m : ProphetModel) (avail : Bool) (df : Option (List ℚ)) (now : ℤ)
        (fit : FitOutcome) (mo : MapeOutcome),
        m.is_trained = true →
        (m.train avail df now fit mo).2.is_trained = true) := by
  refine ⟨?_, ?_, ?_⟩
  · intro m avail l now fit mo h
    by_cases ha : avail = false
    · simp [ProphetModel.train, ha]
    · simp [ProphetModel.train, ha, if_pos h]
  · intro m avail df now fit mo h
    by_cases ha : avail = false
    · simp [ProphetModel.train, ha] at h
    · rcases df with _ | l
      · simp [ProphetModel.train, ha] at h
      · by_cases hl : l.length < MIN_DATA_POINTS_FOR_PROPHET
        · simp [ProphetModel.train, ha, hl] at h
        · cases fit with
          | raises => simp [ProphetModel.train, ha, hl] at h
          | ok => simp [ProphetModel.train, ProphetModel.is_trained, ha, hl]
  · intro m avail df now fit mo h
    by_cases ha : avail = false
    · simpa [ProphetModel.train, ha] using h
    · rcases df with _ | l
      · simpa [ProphetModel.train, ha] using h
      · by_cases hl : l.length < MIN_DATA_POINTS_FOR_PROPHET
        · simpa [ProphetModel.train, ha, hl] using h
        · cases fit with
          | raises =>
              simp only [ProphetModel.is_trained, Bool.and_eq_true, Option.isSome] at h ⊢
              simp [ProphetModel.train, ha, hl]
              rcases hmt : m.lastTrained with _ | t
              · rw [hmt] at h; simp at h
              · simp [hmt]
          | ok => simp [ProphetModel.train, ProphetModel.is_trained, ha, hl]

/-- Witness for `trained_state_monotone`: one observation is fewer than 60,
so training a fresh model with it fails and changes nothing. -/
theorem trained_state_monotone_witness :
    ([(1 : ℚ)] : List ℚ).length < MIN_DATA_POINTS_FOR_PROPHET
    ∧ (ProphetModel.init "n1").train true (some [(1 : ℚ)]) 0 FitOutcome.ok
        (MapeOutcome.predicted []) = (false, ProphetModel.init "n1") :=
  ⟨by decide,
   trained_state_monotone.1 (ProphetModel.init "n1") true [(1 : ℚ)] 0
     FitOutcome.ok (MapeOutcome.predicted []) (by decide)⟩

/-- A concrete trained forecast state: fitted on 60 observations of one
second each, trained at epoch 0 with MAPE 0.5. -/
def sampleTrainedModel : ProphetModel :=
  { node := "n1", model := some (ProphetHandle.fitted (List.replicate 60 1)),
    lastTrained := some 0, trainingData := some (List.replicate 60 1),
    dataPointsCount := 60, lastMape := 0.5 }

/-- C1 counterexample: `train` is not atomic on internal fitting failure.
On a trained model, a `train` call whose internal fit raises returns
`false` as claimed, but the fitted-model-handle field has already been
replaced (the source assigns `self.model = Prophet(...)` before calling
`fit`), so the state is partially updated. -/
theorem train_fit_failure_mutates_model_cex :
    (sampleTrainedModel.train true (some (List.replicate 60 1)) 3600
        FitOutcome.raises MapeOutcome.raises).1 = false
    ∧ (sampleTrainedModel.train true (some (List.replicate 60 1)) 3600
        FitOutcome.raises MapeOutcome.raises).2.model ≠ sampleTrainedModel.model := by
  constructor <;> decide

/-- C1 (amended): when the internal fit raises, `train` catches the
exception, returns `false`, and leaves `training_history`,
`data_point_count`, `last_trained_at` and `last_error_metric` unchanged;
but the fitted-model-handle field has already been replaced by a fresh
unfitted instance, so the state is partially updated in exactly that one
field. -/
theorem train_fit_failure_partial_update (m : ProphetModel) (data : List ℚ)
    (now : ℤ) (mo : MapeOutcome)
    (h : MIN_DATA_POINTS_FOR_PROPHET ≤ data.length) :
    m.train true (some data) now FitOutcome.raises mo
      = (false, { m with model := some ProphetHandle.unfitted }) := by
  simp [ProphetModel.train, Nat.not_lt.mpr h]

/-- Witness for `train_fit_failure_partial_update` at a fresh model and a
60-point history. -/
theorem train_fit_failure_partial_update_witness :
    MIN_DATA_POINTS_FOR_PROPHET ≤ (List.replicate 60 (1 : ℚ)).length
    ∧ (ProphetModel.init "n1").train true (some (List.replicate 60 (1 : ℚ))) 0
        FitOutcome.raises MapeOutcome.raises
      = (false, { ProphetModel.init "n1" with model := some ProphetHandle.unfitted }) :=
  ⟨by decide,
   train_fit_failure_partial_update (ProphetModel.init "n1")
     (List.replicate 60 (1 : ℚ)) 0 MapeOutcome.raises (by decide)⟩

/-- Forecast-state invariant: a fitted handle is only ever installed
together with a `last_trained` timestamp (`train` sets both on success,
and no other code path installs a fitted handle).  It holds initially and
is preserved by `train`. -/
def ProphetModel.WF (m : ProphetModel) : Prop :=
  ∀ l, m.model = some (ProphetHandle.fitted l) → m.lastTrained ≠ none

/-- The invariant holds for a fresh model. -/
theorem prophetModel_wf_init (node : String) : (ProphetModel.init node).WF :=
  fun l h => by simp [ProphetModel.init] at h

/-- The invariant is preserved by `train`. -/
theorem prophetModel_wf_train (m : ProphetModel) (avail : Bool)
    (df : Option (List ℚ)) (now : ℤ) (fit : FitOutcome) (mo : MapeOutcome)
    (h : m.WF) : (m.train avail df now fit mo).2.WF := by
  by_cases ha : avail = false
  · simpa [ProphetModel.train, ha] using h
  · rcases df with _ | l
    · simpa [ProphetModel.train, ha] using h
    · by_cases hl : l.length < MIN_DATA_POINTS_FOR_PROPHET
      · simpa [ProphetModel.train, ha, hl] using h
      · cases fit with
        | raises =>
            intro l2 h2
            simp [ProphetModel.train, ha, hl] at h2
        | ok =>
            intro l2 h2
            simp [ProphetModel.train, ha, hl]

/-- C5: ProphetModel.predict contract: when the model is untrained or
Prophet is unavailable the sentinel `(0.0, 0.0)` is returned; any internal
failure during prediction is caught and yields `(0.0, 0.0)`; and every
non-sentinel result has `predicted_latency ≥ 0` and `confidence ∈
[0.1, 0.99]`. -/
theorem prophet_predict_contract (m : ProphetModel) (avail : Bool)
    (po : PredictOutcome) (hwf : m.WF) :
    (m.is_trained = false ∨ avail = false → m.predict avail po = (0, 0))
    ∧ m.predict avail PredictOutcome.raises = (0, 0)
    ∧ (m.predict avail po = (0, 0)
        ∨ (0 ≤ (m.predict avail po).1
            ∧ 0.1 ≤ (m.predict avail po).2 ∧ (m.predict avail po).2 ≤ 0.99)) := by
  refine ⟨?_, ?_, ?_⟩
  · intro h
    rcases h with h | h
    · by_cases ha : avail = false
      · simp [ProphetModel.predict, ha]
      · rcases hm : m.model with _ | hdl
        · simp [ProphetModel.predict, ha, hm]
        · cases hdl with
          | unfitted => simp [ProphetModel.predict, ha, hm]
          | fitted l =>
              exfalso
              have h1 : m.lastTrained ≠ none := hwf l hm
              have h2 : m.is_trained = true := by
                unfold ProphetModel.is_trained
                rw [hm]
                rcases hmt : m.lastTrained with _ | t
                · exact absurd hmt h1
                · simp
              rw [h] at h2
              cases h2
    · simp [ProphetModel.predict, h]
  · by_cases ha : avail = false
    · simp [ProphetModel.predict, ha]
    · rcases hm : m.model with _ | hdl
      · simp [ProphetModel.predict, ha, hm]
      · cases hdl <;> simp [ProphetModel.predict, ha, hm]
  · by_cases ha : avail = false
    · left; simp [ProphetModel.predict, ha]
    · rcases hm : m.model with _ | hdl
      · left; simp [ProphetModel.predict, ha, hm]
      · cases hdl with
        | unfitted => left; simp [ProphetModel.predict, ha, hm]
        | fitted l =>
            cases po with
            | raises => left; simp [ProphetModel.predict, ha, hm]
            | ok yhat interval =>
                right
                refine ⟨?_, ?_, ?_⟩ <;>
                  simp only [ProphetModel.predict, ha, hm, Bool.false_eq_true,
                    if_false]
                · exact le_max_left _ _
                · exact le_max_left _ _
                · exact max_le (by norm_num) (min_le_left _ _)

/-- Witness for `prophet_predict_contract`: a raise during prediction on a
fresh (well-formed) model is reported as the sentinel. -/
theorem prophet_predict_contract_witness :
    (ProphetModel.init "n1").predict true PredictOutcome.raises = (0, 0) :=
  (prophet_predict_contract (ProphetModel.init "n1") true PredictOutcome.raises
    (fun l h => by simp [ProphetModel.init] at h)).2.1

/-- The latency score of a positive latency is the exponential decay. -/
theorem latencyToScore_of_pos (l : ℚ) (h : 0 < l) :
    latencyToScore l = Real.exp (-(20 * (l : ℝ))) := by
  unfold latencyToScore
  rw [if_neg (not_le.mpr h)]

/-- The latency score is always positive. -/
theorem latencyToScore_pos (l : ℚ) : 0 < latencyToScore l := by
  unfold latencyToScore
  split_ifs
  · norm_num
  · exact Real.exp_pos _

/-- The latency score never exceeds 1. -/
theorem latencyToScore_le_one (l : ℚ) : latencyToScore l ≤ 1 := by
  unfold latencyToScore
  split_ifs with h
  · exact le_refl 1
  · calc Real.exp (-(20 * (l : ℝ)))
        ≤ Real.exp 0 := by
          apply Real.exp_le_exp.mpr
          have hl : (0 : ℝ) < (l : ℝ) := by exact_mod_cast not_le.mp h
          nlinarith
      _ = 1 := Real.exp_zero

/-- Removing the final clamp when the raw score is already in range. -/
theorem clamp_eq_self (x : ℝ) (h1 : 0.01 ≤ x) (h2 : x ≤ 1) :
    max 0.01 (min 1 x) = x := by
  rw [min_eq_right h2, max_eq_right h1]

/-- C3: the full scoring formula: `calculate_health` computes the clamped
weighted blend `0.35 * latency + 0.25 * error + 0.25 * trend +
0.15 * stability`, where the trend component blends current and predicted
latency scores by confidence exactly when `confidence > 0.3`, multiplied
by 0.5 on anomaly, 0.9 on a degrading trend and 1.05 on an improving
trend, clamped to `[0.01, 1.0]`; and on Scenario D inputs the health score
is `0.35 exp(-1/5) + 0.25 + 0.25 (exp(-1/5)/2 + exp(-1)/2) + 0.15`
(≈ 0.8349). -/
theorem calculateHealth_formula_spec :
    (∀ (node : String) (current predicted errorRate : ℚ) (isAnom : Bool)
        (anomScore : ℚ) (trend : Trend) (confidence : ℚ),
        (calculateHealth node current predicted errorRate isAnom anomScore
            trend confidence).health_score
          = max 0.01 (min 1
              (((0.35 : ℝ) * latencyToScore current
                  + 0.25 * max 0 (1 - (errorRate : ℝ))
                  + 0.25 * (if confidence > 0.3 then
                        (1 - (confidence : ℝ)) * latencyToScore current
                          + (confidence : ℝ) * latencyToScore predicted
                      else latencyToScore current)
                  + 0.15 * max 0 (1 - (anomScore : ℝ)))
                * ((if isAnom then 0.5 else 1)
                  * (if trend = Trend.degrading then 0.9
                     else if trend = Trend.improving then 1.05 else 1)))))
    ∧ (calculateHealth "n1" (1/100) (1/20) 0 false 0 Trend.stable
          (1/2)).health_score
        = 0.35 * Real.exp (-(1/5 : ℝ)) + 0.25
            + 0.25 * ((1/2) * Real.exp (-(1/5 : ℝ)) + (1/2) * Real.exp (-1 : ℝ))
            + 0.15 := by
  have hformula : ∀ (node : String) (current predicted errorRate : ℚ)
      (isAnom : Bool) (anomScore : ℚ) (trend : Trend) (confidence : ℚ),
      (calculateHealth node current predicted errorRate isAnom anomScore
          trend confidence).health_score
        = max 0.01 (min 1
            (((0.35 : ℝ) * latencyToScore current
                + 0.25 * max 0 (1 - (errorRate : ℝ))
                + 0.25 * (if confidence > 0.3 then
                      (1 - (confidence : ℝ)) * latencyToScore current
                        + (confidence : ℝ) * latencyToScore predicted
                    else latencyToScore current)
                + 0.15 * max 0 (1 - (anomScore : ℝ)))
              * ((if isAnom then 0.5 else 1)
                * (if trend = Trend.degrading then 0.9
                   else if trend = Trend.improving then 1.05 else 1)))) := by
    intro node current predicted errorRate isAnom anomScore trend confidence
    unfold calculateHealth
    split_ifs <;> ring_nf
  refine ⟨hformula, ?_⟩
  have hc : latencyToScore (1/100 : ℚ) = Real.exp (-(1/5 : ℝ)) := by
    rw [latencyToScore_of_pos _ (by norm_num)]
    norm_num
  have hp : latencyToScore (1/20 : ℚ) = Real.exp (-1 : ℝ) := by
    rw [latencyToScore_of_pos _ (by norm_num)]
    norm_num
  have ha0 : 0 < Real.exp (-(1/5 : ℝ)) := Real.exp_pos _
  have hb0 : 0 < Real.exp (-1 : ℝ) := Real.exp_pos _
  have ha1 : Real.exp (-(1/5 : ℝ)) ≤ 1 := by
    calc Real.exp (-(1/5 : ℝ)) ≤ Real.exp 0 := Real.exp_le_exp.mpr (by norm_num)
      _ = 1 := Real.exp_zero
  have hb1 : Real.exp (-1 : ℝ) ≤ 1 := by
    calc Real.exp (-1 : ℝ) ≤ Real.exp 0 := Real.exp_le_exp.mpr (by norm_num)
      _ = 1 := Real.exp_zero
  rw [hformula]
  rw [if_pos (by norm_num : (1/2 : ℚ) > 0.3),
      if_neg (by decide : ¬ (false = true)),
      if_neg (by decide : ¬ (Trend.stable = Trend.degrading)),
      if_neg (by decide : ¬ (Trend.stable = Trend.improving))]
  rw [clamp_eq_self]
  · rw [hc, hp]; norm_num [max_def]
  · rw [hc, hp]; norm_num [max_def]; nlinarith
  · rw [hc, hp]; norm_num [max_def]; nlinarith

/-- A concrete environment: Prometheus and both libraries available, no
samples for any node, clock at epoch 0, opaque inference calls raising
(and therefore reported as sentinels). -/
def env0 : Env :=
  { prometheusAvailable := true,
    latencySample := fun _ => none,
    errorSample := fun _ => none,
    sklearnAvailable := true,
    prophetAvailable := true,
    now := 0,
    oracles := fun _ =>
      { anomalyFit := FitOutcome.ok,
        classify := ClassifyOutcome.raises,
        forecast := PredictOutcome.raises } }

/-- When the chosen confidence is at most 0.2, the scoring path is the
fallback: simple score with the error-rate penalty, trend "unknown",
predicted latency echoed from the current one, confidence 0. -/
theorem scoreNode_fallback (node : String) (current predicted errorRate : ℚ)
    (isAnom : Bool) (anomScore : ℚ) (trend : Trend) (confidence : ℚ)
    (h : confidence ≤ 0.2) :
    ∃ r : NodeRes,
      scoreNode node current predicted errorRate isAnom anomScore trend confidence
        = PredResponse.full r
      ∧ r.health_score = (if errorRate > 0.1 then
            calculateSimpleScore current * (1 - (errorRate : ℝ))
          else calculateSimpleScore current)
      ∧ r.trend = Trend.unknown
      ∧ r.predicted_latency = current
      ∧ r.current_latency = current
      ∧ r.error_rate = errorRate
      ∧ r.confidence = 0 := by
  unfold scoreNode
  rw [if_neg (not_lt.mpr h)]
  exact ⟨_, rfl, rfl, rfl, rfl, rfl, rfl, rfl⟩

/-- C2 (amended): on the fallback path (chosen confidence ≤ 0.2) the
health score equals `calculate_simple_score(current_latency)` — which is
`latency_to_score(current_latency)` for positive latency but the new-node
default `0.5` for latency ≤ 0 — further multiplied by `(1 - error_rate)`
iff `error_rate > 0.1`; the result reports trend "unknown",
`predicted_latency = current_latency` and confidence 0.  In particular,
for `current_latency = 0.01` and `error_rate = 0` the score is
`exp(-0.2)`. -/
theorem fallback_scoring_amended (node : String) (current errorRate : ℚ)
    (pm : ProphetModel) (ad : AnomalyDetector) (env : Env)
    (hconf : (if pm.is_trained then
        (pm.predict env.prophetAvailable ((env.oracles node).forecast)).2
      else 0) ≤ 0.2) :
    ∃ r : NodeRes,
      (processNode env node current errorRate pm ad).1 = PredResponse.full r
      ∧ r.health_score = (if errorRate > 0.1 then
            calculateSimpleScore current * (1 - (errorRate : ℝ))
          else calculateSimpleScore current)
      ∧ r.trend = Trend.unknown
      ∧ r.predicted_latency = current
      ∧ r.confidence = 0
      ∧ (0 < current → calculateSimpleScore current = latencyToScore current)
      ∧ (current ≤ 0 → calculateSimpleScore current = 0.5)
      ∧ (current = 1/100 → errorRate = 0 →
          r.health_score = Real.exp (-(1/5 : ℝ))) := by
  have hside1 : 0 < current → calculateSimpleScore current = latencyToScore current := by
    intro h
    unfold calculateSimpleScore
    rw [if_neg (not_le.mpr h)]
  have hside2 : current ≤ 0 → calculateSimpleScore current = 0.5 := by
    intro h
    unfold calculateSimpleScore
    rw [if_pos h]
  have hscen : current = 1/100 → errorRate = 0 →
      (if errorRate > 0.1 then
          calculateSimpleScore current * (1 - (errorRate : ℝ))
        else calculateSimpleScore current) = Real.exp (-(1/5 : ℝ)) := by
    intro h1 h2
    subst h1; subst h2
    rw [if_neg (by norm_num)]
    rw [hside1 (by norm_num), latencyToScore_of_pos _ (by norm_num)]
    norm_num
  by_cases ht : pm.is_trained = true
  · have hc2 : (pm.predict env.prophetAvailable ((env.oracles node).forecast)).2
        ≤ 0.2 := by simpa [ht] using hconf
    obtain ⟨r, h1, h2, h3, h4, h5, h6, h7⟩ :=
      scoreNode_fallback node current
        (pm.predict env.prophetAvailable ((env.oracles node).forecast)).1
        errorRate _ _ pm.getTrend _ hc2
    refine ⟨r, ?_, h2, h3, h4, h7, hside1, hside2, ?_⟩
    · simp only [processNode, ht, if_true]
      exact h1
    · intro hcur herr
      rw [h2]
      exact hscen hcur herr
  · obtain ⟨r, h1, h2, h3, h4, h5, h6, h7⟩ :=
      scoreNode_fallback node current current errorRate _ _ Trend.unknown 0
        (by norm_num)
    refine ⟨r, ?_, h2, h3, h4, h7, hside1, hside2, ?_⟩
    · simp only [processNode, ht, if_false]
      exact h1
    · intro hcur herr
      rw [h2]
      exact hscen hcur herr

/-- Witness for `fallback_scoring_amended`: Scenario B — a fresh
(untrained) model with current latency 0.01 and error rate 0 takes the
fallback path and scores `exp(-0.2)`. -/
theorem fallback_scoring_amended_witness :
    ∃ r : NodeRes,
      (processNode env0 "n1" (1/100) 0 (ProphetModel.init "n1")
          (AnomalyDetector.init "n1")).1 = PredResponse.full r
      ∧ r.health_score = Real.exp (-(1/5 : ℝ)) := by
  obtain ⟨r, h1, h2, h3, h4, h5, h6, h7, h8⟩ :=
    fallback_scoring_amended "n1" (1/100) 0 (ProphetModel.init "n1")
      (AnomalyDetector.init "n1") env0
      (by norm_num [ProphetModel.is_trained, ProphetModel.init])
  exact ⟨r, h1, h8 rfl rfl⟩

/-- C2 counterexample: the claim "the returned health_score equals
latency_to_score(current_latency)" fails at `current_latency = 0` (a node
with no sample): the orchestrator's fallback uses
`calculate_simple_score`, which returns the new-node default `0.5` for
latency ≤ 0, whereas `latency_to_score(0) = 1.0`. -/
theorem fallback_zero_latency_cex :
    healthScoreOf (processNode env0 "n1" 0 0 (ProphetModel.init "n1")
        (AnomalyDetector.init "n1")).1 = 0.5
    ∧ latencyToScore 0 = 1
    ∧ (0.5 : ℝ) ≠ 1 := by
  refine ⟨?_, ?_, by norm_num⟩
  · norm_num [processNode, scoreNode, healthScoreOf, calculateSimpleScore,
      ProphetModel.is_trained, ProphetModel.init, ProphetModel.needsRetrain,
      AnomalyDetector.init, AnomalyDetector.addObservation,
      AnomalyDetector.isAnomaly, AnomalyDetector.trainForest, pushWindow, env0]
  · unfold latencyToScore
    rw [if_pos (by norm_num)]

/-- C4: when the metrics source reports unavailable, a scoring request
over any node list returns the neutral `{health_score: 0.5,
confidence: 0.0}` for every requested node, performs no model updates
(the service state is returned untouched and no node is queued for
training); in particular the simple view of `predict(["n1","n2"])` is
`{"n1": 0.5, "n2": 0.5}`. -/
theorem metrics_unavailable_neutral_default (nodes : List String)
    (st : ServiceState) (env : Env) (h : env.prometheusAvailable = false) :
    getDetailedPredictions nodes st env
      = (nodes.map (fun node => (node, PredResponse.degraded 0.5 0)), st, [])
    ∧ predictHealthScores ["n1", "n2"] st env
      = ([("n1", (0.5 : ℝ)), ("n2", 0.5)], st, []) := by
  constructor
  · simp [getDetailedPredictions, h]
  · simp [predictHealthScores, getDetailedPredictions, healthScoreOf, h]

/-- Witness for `metrics_unavailable_neutral_default` on a concrete down
environment and empty state. -/
theorem metrics_unavailable_neutral_default_witness :
    predictHealthScores ["n1", "n2"] (ServiceState.mk [] [])
        { env0 with prometheusAvailable := false }
      = ([("n1", (0.5 : ℝ)), ("n2", 0.5)], ServiceState.mk [] [], []) :=
  (metrics_unavailable_neutral_default ["n1", "n2"] (ServiceState.mk [] [])
    { env0 with prometheusAvailable := false } rfl).2

/-- C10: when the metrics source is available but carries no sample for a
requested node, the orchestrator scores that node with
`current_latency = 0` and `error_rate = 0`; with an untrained forecast
model such a node takes the fallback path and receives
`health_score = 0.5`, because `calculate_simple_score` returns the
new-node default `0.5` (not `latency_to_score(0) = 1.0`) for every
latency ≤ 0. -/
theorem missing_sample_neutral_fallback (node : String) (st : ServiceState)
    (env : Env) (hav : env.prometheusAvailable = true)
    (hlat : env.latencySample node = none)
    (herr : env.errorSample node = none)
    (hpm : ∀ pm, lookupModel st.prophetModels node = some pm →
        pm.is_trained = false) :
    (∃ r : NodeRes,
      (getDetailedPredictions [node] st env).1 = [(node, PredResponse.full r)]
      ∧ r.health_score = 0.5
      ∧ r.current_latency = 0 ∧ r.error_rate = 0
      ∧ r.predicted_latency = 0 ∧ r.confidence = 0)
    ∧ (∀ l : ℚ, l ≤ 0 → calculateSimpleScore l = 0.5)
    ∧ latencyToScore 0 = 1 := by
  have hsimple : ∀ l : ℚ, l ≤ 0 → calculateSimpleScore l = 0.5 := by
    intro l h
    unfold calculateSimpleScore
    rw [if_pos h]
  refine ⟨?_, hsimple, ?_⟩
  · have hpmval :
        ((lookupModel st.prophetModels node).getD (ProphetModel.init node)).is_trained
          = false := by
      rcases hh : lookupModel st.prophetModels node with _ | pm
      · norm_num [ProphetModel.is_trained, ProphetModel.init]
      · simpa using hpm pm hh
    obtain ⟨r, h1, h2, h3, h4, h5, h6, h7⟩ :=
      scoreNode_fallback node 0 0 0
        ((((lookupModel st.anomalyDetectors node).getD
            (AnomalyDetector.init node)).addObservation 0 0 env.sklearnAvailable
            (env.oracles node).anomalyFit).isAnomaly 0 0 env.sklearnAvailable
            (env.oracles node).classify).1
        ((((lookupModel st.anomalyDetectors node).getD
            (AnomalyDetector.init node)).addObservation 0 0 env.sklearnAvailable
            (env.oracles node).anomalyFit).isAnomaly 0 0 env.sklearnAvailable
            (env.oracles node).classify).2
        Trend.unknown 0 (by norm_num)
    refine ⟨r, ?_, ?_, h5, h6, h4, h7⟩
    · simp only [getDetailedPredictions]
      rw [if_neg (by rw [hav]; simp)]
      simp only [List.foldl, stepNode, hlat, herr, Option.getD_none]
      simp only [processNode, hpmval, if_false, Bool.false_eq_true]
      rw [h1]
      simp
    · rw [h2]
      rw [if_neg (by norm_num)]
      exact hsimple 0 (le_refl 0)
  · unfold latencyToScore
    rw [if_pos (by norm_num)]

/-- Witness for `missing_sample_neutral_fallback`: a single unknown node
against the empty state in the concrete sample-free environment. -/
theorem missing_sample_neutral_fallback_witness :
    (∃ r : NodeRes,
      (getDetailedPredictions ["n1"] (ServiceState.mk [] []) env0).1
        = [("n1", PredResponse.full r)]
      ∧ r.health_score = 0.5
      ∧ r.current_latency = 0 ∧ r.error_rate = 0
      ∧ r.predicted_latency = 0 ∧ r.confidence = 0) :=
  (missing_sample_neutral_fallback "n1" (ServiceState.mk [] []) env0 rfl rfl rfl
    (fun pm h => by simp [lookupModel] at h)).1
